import Mathlib

/-!
A verification development for a string-analysis service.

The service (a small Python/FastAPI application) has three pure cores:

* `analyze_string` (app/analyzer.py): computes derived properties of a text.
* `parse_natural_language_query` (app/parser.py): turns a free-text sentence
  into a sparse filter record, or `none` when nothing is recognized.
* `get_filtered_strings` (app/crud.py): applies a filter record to the stored
  collection, one conjunctive WHERE clause per present field.

We embed these cores shallowly: a Python string is a `List Char` of its
Unicode scalars, the filter dictionary is a record of `Option` fields, and
the SQL query built by `get_filtered_strings` is interpreted over a list of
records, each WHERE clause a `List.filter`.  The regular expressions of the
parser are embedded as explicit leftmost-search functions; for each pattern
used by the source the greedy/backtracking behaviour collapses to maximal
munch because adjacent character classes are disjoint, which the embedding
realizes with `takeWhile`/`dropWhile`.  Character classes model the ASCII
behaviour of Python's `\s`, `\d`, `[a-z0-9]`, `str.lower`, `str.strip` and
`str.split`.
-/

namespace StringAnalyzer

/-- ASCII whitespace, the characters matched by Python's `\s` (and the ASCII
fragment of `str.split`/`str.strip`): space, tab, newline, carriage return,
form feed, vertical tab. -/
def isSpace (c : Char) : Bool :=
  c = ' ' || c = '\t' || c = '\n' || c = '\r' || c = Char.ofNat 11 || c = Char.ofNat 12

/-- ASCII decimal digit, Python's `\d` on ASCII text. -/
def isDigitCh (c : Char) : Bool :=
  '0' ≤ c && c ≤ '9'

/-- The character class `[a-z0-9]` of the parser's contains-pattern. -/
def isLowerAlnum (c : Char) : Bool :=
  ('a' ≤ c && c ≤ 'z') || isDigitCh c

/-- A single or double quote, the class `["\x27]` of the contains-pattern. -/
def isQuote (c : Char) : Bool :=
  c = Char.ofNat 34 || c = Char.ofNat 39

/-- `int()` on a run of ASCII digits. -/
def digitsToNat (ds : List Char) : Nat :=
  ds.foldl (fun n c => 10 * n + (c.toNat - 48)) 0

/-- `p` is a prefix of `t` (character-by-character). -/
def isPre : List Char → List Char → Bool
  | [], _ => true
  | _ :: _, [] => false
  | p :: ps, c :: cs => p = c && isPre ps cs

/-- Python's substring test `pat in t`. -/
def hasSub (pat : List Char) : List Char → Bool
  | [] => pat.isEmpty
  | t@(_ :: rest) => isPre pat t || hasSub pat rest

/-- Python's `str.strip()` on ASCII whitespace. -/
def pyStrip (t : List Char) : List Char :=
  ((t.dropWhile isSpace).reverse.dropWhile isSpace).reverse

/-- Python's `str.lower()` restricted to its ASCII behaviour. -/
def pyLower (t : List Char) : List Char :=
  t.map Char.toLower

/-- The normalization `query.lower().strip()` performed by the parser. -/
def normalizeQuery (t : List Char) : List Char :=
  pyStrip (pyLower t)

/-!  ## The Analyzer (app/analyzer.py)  -/

/-- Distinct characters of `t` in order of first occurrence, with `seen`
already excluded: the key sequence of `dict(Counter(t))`. -/
def firstDedupAux (seen : List Char) : List Char → List Char
  | [] => []
  | c :: cs =>
    if seen.contains c then firstDedupAux seen cs
    else c :: firstDedupAux (c :: seen) cs

/-- Distinct characters of `t` in order of first occurrence. -/
def firstDedup (t : List Char) : List Char :=
  firstDedupAux [] t

/-- `Counter(t)` as an association list: each distinct character of `t`
paired with its occurrence count. -/
def charFrequencyMap (t : List Char) : List (Char × Nat) :=
  (firstDedup t).map fun c => (c, t.count c)

/-- One splitting step of Python's `str.split()` (no separator argument):
`acc` holds the reversed characters of the word currently being read. -/
def splitAux : List Char → List Char → List (List Char)
  | [], acc => if acc.isEmpty then [] else [acc.reverse]
  | c :: cs, acc =>
    if isSpace c then
      if acc.isEmpty then splitAux cs [] else acc.reverse :: splitAux cs []
    else splitAux cs (c :: acc)

/-- Python's `str.split()`: maximal runs of non-whitespace characters. -/
def pySplit (t : List Char) : List (List Char) :=
  splitAux t []

/-- A stored record, the column projection of the `AnalyzedString` model that
the filtering core reads (app/models.py); `character_frequency_map` is the
JSON map keyed by character. -/
structure AnalyzedString where
  value : List Char
  length : Nat
  is_palindrome : Bool
  unique_characters : Nat
  word_count : Nat
  character_frequency_map : List (Char × Nat)
deriving DecidableEq, Repr

/-- `analyze_string` (app/analyzer.py): length is the scalar count, the
palindrome test lower-cases first, uniqueness and frequency do not, the word
count is `len(t.split())`.  (The SHA-256 digest is not modelled; no claim
below concerns it.) -/
def analyze_string (t : List Char) : AnalyzedString :=
  { value := t
    length := t.length
    is_palindrome := pyLower t = (pyLower t).reverse
    unique_characters := t.toFinset.card
    word_count := (pySplit t).length
    character_frequency_map := charFrequencyMap t }

/-!  ## The Query Interpreter (app/parser.py)

Each `re.search` of the source is embedded as a scan over start positions
(leftmost match) with an explicit matcher at each position.  In every
pattern a greedy `\d+` or `\s+` is followed by a character outside its own
class, so backtracking never shortens it: the matchers take the maximal run
with `takeWhile`/`dropWhile`. -/

/-- Matcher for `(\d+)\s+word(s)?` anchored at the head of `t`; returns the
integer captured by group 1.  The optional `(s)?` cannot affect success. -/
def matchNumWordAt (t : List Char) : Option Nat :=
  let ds := t.takeWhile isDigitCh
  if ds.isEmpty then none
  else
    let r1 := t.dropWhile isDigitCh
    if (r1.takeWhile isSpace).isEmpty then none
    else if isPre "word".toList (r1.dropWhile isSpace) then some (digitsToNat ds)
    else none

/-- `re.search(r'(\d+)\s+word(s)?', t)`: leftmost match, captured integer. -/
def searchNumWord : List Char → Option Nat
  | [] => none
  | t@(_ :: rest) => (matchNumWordAt t).orElse fun _ => searchNumWord rest

/-- Matcher for the tail `\s+than\s+(\d+)` (after `longer`/`more`/`shorter`/
`less` has been consumed); returns the captured integer. -/
def matchThanNum (r : List Char) : Option Nat :=
  if (r.takeWhile isSpace).isEmpty then none
  else
    let r1 := r.dropWhile isSpace
    if isPre "than".toList r1 then
      let r2 := (r1.drop 4)
      if (r2.takeWhile isSpace).isEmpty then none
      else
        let ds := (r2.dropWhile isSpace).takeWhile isDigitCh
        if ds.isEmpty then none else some (digitsToNat ds)
    else none

/-- Matcher for `(longer|more)\s+than\s+(\d+)` at the head of `t`.  The two
alternatives begin with different letters, so at most one can start here. -/
def matchLongerMoreAt (t : List Char) : Option Nat :=
  if isPre "longer".toList t then matchThanNum (t.drop 6)
  else if isPre "more".toList t then matchThanNum (t.drop 4)
  else none

/-- `re.search(r'(longer|more)\s+than\s+(\d+)', t)`, captured integer. -/
def searchLongerMore : List Char → Option Nat
  | [] => none
  | t@(_ :: rest) => (matchLongerMoreAt t).orElse fun _ => searchLongerMore rest

/-- Matcher for `(shorter|less)\s+than\s+(\d+)` at the head of `t`. -/
def matchShorterLessAt (t : List Char) : Option Nat :=
  if isPre "shorter".toList t then matchThanNum (t.drop 7)
  else if isPre "less".toList t then matchThanNum (t.drop 4)
  else none

/-- `re.search(r'(shorter|less)\s+than\s+(\d+)', t)`, captured integer. -/
def searchShorterLess : List Char → Option Nat
  | [] => none
  | t@(_ :: rest) => (matchShorterLessAt t).orElse fun _ => searchShorterLess rest

/-- Matcher for the tail `\s+(\d+)` after a literal keyword. -/
def matchWsNum (r : List Char) : Option Nat :=
  if (r.takeWhile isSpace).isEmpty then none
  else
    let ds := (r.dropWhile isSpace).takeWhile isDigitCh
    if ds.isEmpty then none else some (digitsToNat ds)

/-- Matcher for `at\s+least\s+(\d+)` at the head of `t`. -/
def matchAtLeastAt (t : List Char) : Option Nat :=
  if isPre "at".toList t then
    let r := t.drop 2
    if (r.takeWhile isSpace).isEmpty then none
    else
      let r1 := r.dropWhile isSpace
      if isPre "least".toList r1 then matchWsNum (r1.drop 5) else none
  else none

/-- `re.search(r'at\s+least\s+(\d+)', t)`, captured integer. -/
def searchAtLeast : List Char → Option Nat
  | [] => none
  | t@(_ :: rest) => (matchAtLeastAt t).orElse fun _ => searchAtLeast rest

/-- Matcher for `at\s+most\s+(\d+)` at the head of `t`. -/
def matchAtMostAt (t : List Char) : Option Nat :=
  if isPre "at".toList t then
    let r := t.drop 2
    if (r.takeWhile isSpace).isEmpty then none
    else
      let r1 := r.dropWhile isSpace
      if isPre "most".toList r1 then matchWsNum (r1.drop 4) else none
  else none

/-- `re.search(r'at\s+most\s+(\d+)', t)`, captured integer. -/
def searchAtMost : List Char → Option Nat
  | [] => none
  | t@(_ :: rest) => (matchAtMostAt t).orElse fun _ => searchAtMost rest

/-- Matcher for the tail `["\x27]?([a-z0-9])`: an optional quote followed by
the captured character.  If the greedy optional quote is taken but no
alphanumeric follows, backtracking retries without it — and then fails,
since a quote is itself not alphanumeric. -/
def matchQuoteChar : List Char → Option Char
  | [] => none
  | c :: rest =>
    if isQuote c then
      match rest with
      | d :: _ => if isLowerAlnum d then some d else none
      | [] => none
    else if isLowerAlnum c then some c else none

/-- Matcher for the greedy optional group `(the\s+letter\s+)` followed by the
quote-and-capture tail; fails if either part fails, which makes the caller
retry without the group (regex backtracking over `(...)?`). -/
def matchTheLetterTail (r : List Char) : Option Char :=
  if isPre "the".toList r then
    let r1 := r.drop 3
    if (r1.takeWhile isSpace).isEmpty then none
    else
      let r2 := r1.dropWhile isSpace
      if isPre "letter".toList r2 then
        let r3 := r2.drop 6
        if (r3.takeWhile isSpace).isEmpty then none
        else matchQuoteChar (r3.dropWhile isSpace)
      else none
  else none

/-- Matcher for the tail `\s+(the\s+letter\s+)?["\x27]?([a-z0-9])["\x27]?`
after `contain(s|ing)`; the trailing optional quote never affects success or
the capture. -/
def matchContainTail (r : List Char) : Option Char :=
  if (r.takeWhile isSpace).isEmpty then none
  else
    let r1 := r.dropWhile isSpace
    (matchTheLetterTail r1).orElse fun _ => matchQuoteChar r1

/-- Matcher for `contain(s|ing)\s+(the\s+letter\s+)?["\x27]?([a-z0-9])["\x27]?`
at the head of `t`; returns the character captured by group 3.  If the `s`
alternative matches but the tail fails, the `ing` alternative cannot start
at the same position, so no further backtracking arises. -/
def matchContainsAt (t : List Char) : Option Char :=
  if isPre "contain".toList t then
    match t.drop 7 with
    | [] => none
    | c :: rest =>
      if c = 's' then matchContainTail rest
      else if isPre "ing".toList (c :: rest) then matchContainTail (rest.drop 2)
      else none
  else none

/-- The contains-pattern `re.search`, leftmost match, captured character. -/
def searchContains : List Char → Option Char
  | [] => none
  | t@(_ :: rest) => (matchContainsAt t).orElse fun _ => searchContains rest

/-- The filter dictionary built by the parser and consumed by the filtering
core: five optional fields, absence meaning "no constraint".  Lengths are
integers because rule 5 computes `integer - 1`, which Python takes below
zero. -/
structure Filters where
  is_palindrome : Option Bool := none
  min_length : Option Int := none
  max_length : Option Int := none
  word_count : Option Nat := none
  contains_character : Option Char := none
deriving DecidableEq, Repr

/-- The empty filter dictionary. -/
def Filters.empty : Filters := {}

/-- The rule cascade of `parse_natural_language_query` on the already
normalized sentence: eight recognition rules applied in source order, later
rules overwriting earlier ones on the same field. -/
def buildFilters (q : List Char) : Filters :=
  let f0 : Filters := {}
  let f1 := if hasSub "palindromic".toList q || hasSub "palindrome".toList q then
    { f0 with is_palindrome := some true } else f0
  let f2 := match searchNumWord q with
    | some n => { f1 with word_count := some n }
    | none => if hasSub "single word".toList q then { f1 with word_count := some 1 } else f1
  let f3 := match searchLongerMore q with
    | some n => { f2 with min_length := some ((n : Int) + 1) }
    | none => f2
  let f4 := match searchAtLeast q with
    | some n => { f3 with min_length := some (n : Int) }
    | none => f3
  let f5 := match searchShorterLess q with
    | some n => { f4 with max_length := some ((n : Int) - 1) }
    | none => f4
  let f6 := match searchAtMost q with
    | some n => { f5 with max_length := some (n : Int) }
    | none => f5
  let f7 := match searchContains q with
    | some c => { f6 with contains_character := some c }
    | none => f6
  if hasSub "first vowel".toList q then { f7 with contains_character := some 'a' } else f7

/-- `parse_natural_language_query` (app/parser.py): normalize, run the rule
cascade, and return `none` exactly when the dictionary stayed empty. -/
def parse_natural_language_query (query : List Char) : Option Filters :=
  let q := normalizeQuery query
  let f := buildFilters q
  if f = Filters.empty then none else some f

/-!  ## The Filter Evaluator (app/crud.py) and the two routes (app/main.py) -/

/-- `has_key` on the JSON frequency map. -/
def hasKey (m : List (Char × Nat)) (c : Char) : Bool :=
  m.any fun p => p.1 = c

/-- `get_filtered_strings` (app/crud.py) read over a record sequence: one
conjunctive WHERE clause per present filter field, in source order, no
ordering clause. -/
def get_filtered_strings (records : List AnalyzedString) (filters : Filters) :
    List AnalyzedString :=
  let q := records
  let q := match filters.is_palindrome with
    | some b => q.filter fun r => r.is_palindrome = b
    | none => q
  let q := match filters.min_length with
    | some n => q.filter fun r => n ≤ (r.length : Int)
    | none => q
  let q := match filters.max_length with
    | some n => q.filter fun r => (r.length : Int) ≤ n
    | none => q
  let q := match filters.word_count with
    | some n => q.filter fun r => r.word_count = n
    | none => q
  match filters.contains_character with
  | some c => q.filter fun r => hasKey r.character_frequency_map c
  | none => q

/-- Specification-side predicate: the conjunction of all present filter
fields, absent fields imposing no constraint (spec §4.3). -/
def matchesFilters (filters : Filters) (r : AnalyzedString) : Bool :=
  (match filters.is_palindrome with
    | some b => r.is_palindrome = b
    | none => true) &&
  (match filters.min_length with
    | some n => n ≤ (r.length : Int)
    | none => true) &&
  (match filters.max_length with
    | some n => (r.length : Int) ≤ n
    | none => true) &&
  (match filters.word_count with
    | some n => r.word_count = n
    | none => true) &&
  (match filters.contains_character with
    | some c => hasKey r.character_frequency_map c
    | none => true)

/-- The data computed by the structured-parameter route `get_all_strings`
(app/main.py): the five optional query parameters are collected into the
filter record and handed to the single filtering core. -/
def get_all_strings (db : List AnalyzedString) (filters : Filters) :
    List AnalyzedString :=
  get_filtered_strings db filters

/-- The data computed by the natural-language route
`get_strings_by_natural_language` (app/main.py): `none` models the 400
rejection raised when the parser returns `None`; otherwise the parsed
filter record is handed to the same filtering core. -/
def nl_route_data (db : List AnalyzedString) (query : List Char) :
    Option (List AnalyzedString) :=
  match parse_natural_language_query query with
  | none => none
  | some f => some (get_filtered_strings db f)

/-- The response schema `NLFilterParsed` (app/schemas.py): the
`parsed_filters` record echoed by the natural-language route.  It declares
only four of the five filter fields — there is no `max_length` field. -/
structure NLFilterParsed where
  word_count : Option Nat := none
  is_palindrome : Option Bool := none
  min_length : Option Int := none
  contains_character : Option Char := none
deriving DecidableEq, Repr

/-- `NLFilterParsed(**parsed_filters)`: pydantic populates the declared
fields and ignores extra keys by default, so a `max_length` entry of the
parsed dictionary is dropped. -/
def toNLFilterParsed (f : Filters) : NLFilterParsed :=
  { word_count := f.word_count
    is_palindrome := f.is_palindrome
    min_length := f.min_length
    contains_character := f.contains_character }

/-- The `parsed_filters` record echoed by the natural-language route,
alongside the data of `nl_route_data`. -/
def nl_route_parsed (query : List Char) : Option NLFilterParsed :=
  (parse_natural_language_query query).map toNLFilterParsed

/-!  ## Specification-side definitions used to state the claims -/

/-- Number of maximal runs of non-whitespace characters; the flag records
whether the previous character belonged to a run (spec §3 `word_count`). -/
def countRunsAux : List Char → Bool → Nat
  | [], _ => 0
  | c :: cs, inWord =>
    if isSpace c then countRunsAux cs false
    else (if inWord then 0 else 1) + countRunsAux cs true

/-- Number of maximal runs of non-whitespace characters in `t`. -/
def countRuns (t : List Char) : Nat :=
  countRunsAux t false

/-- Rule 1 of the interpreter fires: a palindrome token occurs. -/
def rule1Fires (q : List Char) : Bool :=
  hasSub "palindromic".toList q || hasSub "palindrome".toList q

/-- Rule 2 fires: a numeric word-count pattern or the phrase `single word`. -/
def rule2Fires (q : List Char) : Bool :=
  (searchNumWord q).isSome || hasSub "single word".toList q

/-- Rule 3 fires: a `(longer|more) than N` pattern occurs. -/
def rule3Fires (q : List Char) : Bool :=
  (searchLongerMore q).isSome

/-- Rule 4 fires: an `at least N` pattern occurs. -/
def rule4Fires (q : List Char) : Bool :=
  (searchAtLeast q).isSome

/-- Rule 5 fires: a `(shorter|less) than N` pattern occurs. -/
def rule5Fires (q : List Char) : Bool :=
  (searchShorterLess q).isSome

/-- Rule 6 fires: an `at most N` pattern occurs. -/
def rule6Fires (q : List Char) : Bool :=
  (searchAtMost q).isSome

/-- Rule 7 fires: a `contain(s|ing) ... <character>` pattern occurs. -/
def rule7Fires (q : List Char) : Bool :=
  (searchContains q).isSome

/-- Rule 8 fires: the phrase `first vowel` occurs. -/
def rule8Fires (q : List Char) : Bool :=
  hasSub "first vowel".toList q

/-- Some recognition rule fires on the normalized sentence. -/
def anyRuleFires (q : List Char) : Bool :=
  rule1Fires q || rule2Fires q || rule3Fires q || rule4Fires q ||
    rule5Fires q || rule6Fires q || rule7Fires q || rule8Fires q

/-!  ## Normal form of the rule cascade -/

/-- The rule cascade written field-wise: each field is determined by the
rules that target it, later rules overriding earlier ones. -/
theorem buildFilters_normal (q : List Char) :
    buildFilters q =
      { is_palindrome := if rule1Fires q then some true else none
        word_count :=
          match searchNumWord q with
          | some n => some n
          | none => if hasSub "single word".toList q then some 1 else none
        min_length :=
          match searchAtLeast q with
          | some m => some (m : Int)
          | none =>
            match searchLongerMore q with
            | some n => some ((n : Int) + 1)
            | none => none
        max_length :=
          match searchAtMost q with
          | some m => some (m : Int)
          | none =>
            match searchShorterLess q with
            | some n => some ((n : Int) - 1)
            | none => none
        contains_character :=
          if rule8Fires q then some 'a' else searchContains q } := by
  unfold buildFilters rule1Fires rule8Fires
  cases h1 : hasSub "palindromic".toList q || hasSub "palindrome".toList q <;>
    cases h2 : searchNumWord q <;>
    cases h2b : hasSub "single word".toList q <;>
    cases h3 : searchLongerMore q <;>
    cases h4 : searchAtLeast q <;>
    cases h5 : searchShorterLess q <;>
    cases h6 : searchAtMost q <;>
    cases h7 : searchContains q <;>
    cases h8 : hasSub "first vowel".toList q <;>
    rfl

/-- Two filter records with equal fields are equal. -/
theorem Filters.eqOfFields {f g : Filters}
    (h1 : f.is_palindrome = g.is_palindrome) (h2 : f.min_length = g.min_length)
    (h3 : f.max_length = g.max_length) (h4 : f.word_count = g.word_count)
    (h5 : f.contains_character = g.contains_character) : f = g := by
  cases f; cases g; simp_all

/-- The cascade leaves the dictionary empty exactly when no rule fires. -/
theorem buildFilters_eq_empty (q : List Char) :
    buildFilters q = Filters.empty ↔ anyRuleFires q = false := by
  rw [buildFilters_normal]
  unfold Filters.empty anyRuleFires rule1Fires rule2Fires rule3Fires rule4Fires
    rule5Fires rule6Fires rule7Fires rule8Fires
  cases h1 : hasSub "palindromic".toList q <;>
    cases h1b : hasSub "palindrome".toList q <;>
    cases h2 : searchNumWord q <;>
    cases h2b : hasSub "single word".toList q <;>
    cases h3 : searchLongerMore q <;>
    cases h4 : searchAtLeast q <;>
    cases h5 : searchShorterLess q <;>
    cases h6 : searchAtMost q <;>
    cases h7 : searchContains q <;>
    cases h8 : hasSub "first vowel".toList q <;>
    simp

/-- A successfully parsed sentence yields exactly the cascade's record. -/
theorem parse_eq_some_iff (query : List Char) (f : Filters) :
    parse_natural_language_query query = some f ↔
      buildFilters (normalizeQuery query) ≠ Filters.empty ∧
        f = buildFilters (normalizeQuery query) := by
  unfold parse_natural_language_query
  by_cases h : buildFilters (normalizeQuery query) = Filters.empty
  · simp [h]
  · simp [h, eq_comm]

/-- The parser rejects exactly when the cascade's record stays empty. -/
theorem parse_eq_none_iff (query : List Char) :
    parse_natural_language_query query = none ↔
      buildFilters (normalizeQuery query) = Filters.empty := by
  unfold parse_natural_language_query
  by_cases h : buildFilters (normalizeQuery query) = Filters.empty <;> simp [h]

/-!  ## Claim theorems -/

/-- C3: the interpreter returns the `NotUnderstood` signal (`none`) if and
only if none of the eight recognition rules fires on the normalized
sentence — equivalently, iff the resulting filter record would have zero
fields — and a sentence on which at least one rule fires returns the
(possibly partial) filter record with no failure signal. -/
theorem interpret_notUnderstood_iff_no_rule_fires (query : List Char) :
    (parse_natural_language_query query = none ↔
      anyRuleFires (normalizeQuery query) = false) ∧
    (anyRuleFires (normalizeQuery query) = true →
      parse_natural_language_query query =
        some (buildFilters (normalizeQuery query))) := by
  constructor
  · rw [parse_eq_none_iff, buildFilters_eq_empty]
  · intro h
    rw [parse_eq_some_iff]
    refine ⟨fun hc => ?_, rfl⟩
    rw [buildFilters_eq_empty] at hc
    rw [h] at hc
    exact Bool.noConfusion hc

/-- C3 witness: `hello` fires no rule and is rejected; `palindromic` fires
rule 1 and returns the partial record. -/
theorem interpret_notUnderstood_iff_no_rule_fires_witness :
    parse_natural_language_query "hello".toList = none ∧
    parse_natural_language_query "palindromic".toList =
      some (buildFilters (normalizeQuery "palindromic".toList)) := by
  constructor
  · exact (interpret_notUnderstood_iff_no_rule_fires "hello".toList).1.mpr (by decide)
  · exact (interpret_notUnderstood_iff_no_rule_fires "palindromic".toList).2 (by decide)

/-- C4: on the normalized sentence, a `(longer|more) than N` match sets
`min_length = N + 1` and an `at least M` match overwrites `min_length` to
exactly `M`; a `(shorter|less) than N` match sets `max_length = N - 1` and
an `at most M` match overwrites `max_length` to exactly `M` —
last-applied-wins, rule 3 before rule 4 and rule 5 before rule 6. -/
theorem length_rules_override (query : List Char) (f : Filters)
    (h : parse_natural_language_query query = some f) :
    (∀ n, searchLongerMore (normalizeQuery query) = some n →
      searchAtLeast (normalizeQuery query) = none →
      f.min_length = some ((n : Int) + 1)) ∧
    (∀ m, searchAtLeast (normalizeQuery query) = some m →
      f.min_length = some (m : Int)) ∧
    (∀ n, searchShorterLess (normalizeQuery query) = some n →
      searchAtMost (normalizeQuery query) = none →
      f.max_length = some ((n : Int) - 1)) ∧
    (∀ m, searchAtMost (normalizeQuery query) = some m →
      f.max_length = some (m : Int)) := by
  obtain ⟨-, rfl⟩ := (parse_eq_some_iff query f).mp h
  rw [buildFilters_normal]
  refine ⟨fun n h3 h4 => ?_, fun m h4 => ?_, fun n h5 h6 => ?_, fun m h6 => ?_⟩
  · simp only [h3, h4]
  · simp only [h4]
  · simp only [h5, h6]
  · simp only [h6]

/-- C4 witness: in a sentence with all four length phrases, `at least 3`
overrides `longer than 5` and `at most 9` overrides `shorter than 12`. -/
theorem length_rules_override_witness :
    parse_natural_language_query
        "longer than 5 at least 3 shorter than 12 at most 9".toList =
      some (buildFilters (normalizeQuery
        "longer than 5 at least 3 shorter than 12 at most 9".toList)) ∧
    (buildFilters (normalizeQuery
        "longer than 5 at least 3 shorter than 12 at most 9".toList)).min_length =
      some 3 ∧
    (buildFilters (normalizeQuery
        "longer than 5 at least 3 shorter than 12 at most 9".toList)).max_length =
      some 9 := by
  refine ⟨by decide, ?_, ?_⟩
  · exact (length_rules_override
      "longer than 5 at least 3 shorter than 12 at most 9".toList
      (buildFilters (normalizeQuery
        "longer than 5 at least 3 shorter than 12 at most 9".toList))
      (by decide)).2.1 3 (by decide)
  · exact (length_rules_override
      "longer than 5 at least 3 shorter than 12 at most 9".toList
      (buildFilters (normalizeQuery
        "longer than 5 at least 3 shorter than 12 at most 9".toList))
      (by decide)).2.2.2 9 (by decide)

/-- C5: a numeric `N word(s)` match sets `word_count = N` and takes
precedence over the literal `single word` (which yields `word_count = 1`
only when the numeric pattern is absent); the literal `first vowel` sets
`contains_character = 'a'`, overwriting any character captured by the
`contain(s|ing)` pattern. -/
theorem word_count_and_vowel_precedence (query : List Char) (f : Filters)
    (h : parse_natural_language_query query = some f) :
    (∀ n, searchNumWord (normalizeQuery query) = some n →
      f.word_count = some n) ∧
    (searchNumWord (normalizeQuery query) = none →
      hasSub "single word".toList (normalizeQuery query) = true →
      f.word_count = some 1) ∧
    (rule8Fires (normalizeQuery query) = true →
      f.contains_character = some 'a') ∧
    (rule8Fires (normalizeQuery query) = false →
      ∀ c, searchContains (normalizeQuery query) = some c →
        f.contains_character = some c) := by
  obtain ⟨-, rfl⟩ := (parse_eq_some_iff query f).mp h
  rw [buildFilters_normal]
  refine ⟨fun n h2 => ?_, fun h2 h2b => ?_, fun h8 => ?_, fun h8 c h7 => ?_⟩
  · simp only [h2]
  · simp only [h2, h2b, if_true]
  · simp only [h8, if_true]
  · simp only [h7, h8, Bool.false_eq_true, if_false]

/-- C5 witness: `2 words single word containing the letter z first vowel`
has both word-count phrases and both character rules; the numeric match and
the vowel rule win. -/
theorem word_count_and_vowel_precedence_witness :
    parse_natural_language_query
        "2 words single word containing the letter z first vowel".toList =
      some (buildFilters (normalizeQuery
        "2 words single word containing the letter z first vowel".toList)) ∧
    (buildFilters (normalizeQuery
        "2 words single word containing the letter z first vowel".toList)).word_count =
      some 2 ∧
    (buildFilters (normalizeQuery
        "2 words single word containing the letter z first vowel".toList)).contains_character =
      some 'a' := by
  refine ⟨by decide, ?_, ?_⟩
  · exact (word_count_and_vowel_precedence
      "2 words single word containing the letter z first vowel".toList
      (buildFilters (normalizeQuery
        "2 words single word containing the letter z first vowel".toList))
      (by decide)).1 2 (by decide)
  · exact (word_count_and_vowel_precedence
      "2 words single word containing the letter z first vowel".toList
      (buildFilters (normalizeQuery
        "2 words single word containing the letter z first vowel".toList))
      (by decide)).2.2.1 (by decide)

/-- The sequential WHERE clauses collapse to one filter by the conjunction
of all present fields. -/
theorem get_filtered_strings_eq_filter (records : List AnalyzedString)
    (f : Filters) :
    get_filtered_strings records f = records.filter (matchesFilters f) := by
  obtain ⟨p, mn, mx, wc, cc⟩ := f
  cases p <;> cases mn <;> cases mx <;> cases wc <;> cases cc <;>
    simp only [get_filtered_strings, List.filter_filter] <;>
    first
      | exact List.filter_congr fun a _ => by
          simp [matchesFilters, Bool.and_comm, Bool.and_left_comm, Bool.and_assoc]
      | (symm
         rw [List.filter_eq_self]
         intro a _
         simp [matchesFilters])

/-- C1: the Filter Evaluator returns exactly the subsequence of the input
records satisfying the conjunction of all present filter fields (absent
fields impose no constraint), preserving the relative input order with no
sorting. -/
theorem filter_evaluator_is_ordered_conjunction (records : List AnalyzedString)
    (f : Filters) :
    get_filtered_strings records f = records.filter (matchesFilters f) ∧
    (get_filtered_strings records f).Sublist records := by
  have h := get_filtered_strings_eq_filter records f
  exact ⟨h, h ▸ List.filter_sublist records⟩

/-- C2: whenever the interpreter maps a sentence to the same filter record
as a structured parameter set, the natural-language route and the
structured route return identical result sets: both invoke the single
`get_filtered_strings` evaluator. -/
theorem nl_and_structured_paths_agree (db : List AnalyzedString)
    (query : List Char) (f : Filters)
    (h : parse_natural_language_query query = some f) :
    nl_route_data db query = some (get_all_strings db f) := by
  unfold nl_route_data get_all_strings
  rw [h]

/-- C2 witness: the sentence `palindromic` and the structured parameter set
with only `is_palindrome = true` agree on a concrete collection. -/
theorem nl_and_structured_paths_agree_witness :
    parse_natural_language_query "palindromic".toList =
      some { is_palindrome := some true } ∧
    nl_route_data [analyze_string "aba".toList, analyze_string "ab".toList]
        "palindromic".toList =
      some (get_all_strings
        [analyze_string "aba".toList, analyze_string "ab".toList]
        { is_palindrome := some true }) := by
  exact ⟨by decide,
    nl_and_structured_paths_agree
      [analyze_string "aba".toList, analyze_string "ab".toList]
      "palindromic".toList { is_palindrome := some true } (by decide)⟩

/-- Decoding a valid code point recovers it. -/
theorem toNat_ofNat_valid {m : Nat} (h : m.isValidChar) :
    (Char.ofNat m).toNat = m := by
  simp [Char.ofNat, dif_pos h, Char.ofNatAux, Char.toNat, UInt32.toNat,
    BitVec.toNat_ofNatLt]

/-- Lower-casing is idempotent. -/
theorem toLower_idem (c : Char) : c.toLower.toLower = c.toLower := by
  unfold Char.toLower
  by_cases h : c.toNat ≥ 65 ∧ c.toNat ≤ 90
  · have hv : (c.toNat + 32).isValidChar := Or.inl (by omega)
    rw [if_pos h, if_neg]
    rw [toNat_ofNat_valid hv]
    omega
  · rw [if_neg h, if_neg h]

/-- Lower-casing a word is idempotent. -/
theorem pyLower_idem (t : List Char) : pyLower (pyLower t) = pyLower t := by
  simp [pyLower, List.map_map, Function.comp_def, toLower_idem]

/-- C6: the palindrome property is computed on the lower-cased text — so it
is invariant under lower-casing the input — while `unique_characters` and
`character_frequency_map` are case-sensitive: `analyze("Racecar")` is a
palindrome with 5 distinct characters (`'R'` and `'r'` distinct, both keys
of the frequency map), its lower-cased form has only 4, and
`analyze("racecar")` has length 7 and is a palindrome. -/
theorem analyzer_case_asymmetry :
    (∀ t : List Char,
      (analyze_string (pyLower t)).is_palindrome =
        (analyze_string t).is_palindrome) ∧
    (analyze_string "Racecar".toList).is_palindrome = true ∧
    (analyze_string "Racecar".toList).unique_characters = 5 ∧
    hasKey (analyze_string "Racecar".toList).character_frequency_map 'R' = true ∧
    hasKey (analyze_string "Racecar".toList).character_frequency_map 'r' = true ∧
    (analyze_string (pyLower "Racecar".toList)).unique_characters = 4 ∧
    (analyze_string "racecar".toList).length = 7 ∧
    (analyze_string "racecar".toList).is_palindrome = true := by
  refine ⟨fun t => ?_, by decide, by decide, by decide, by decide, by decide,
    by decide, by decide⟩
  simp only [analyze_string, pyLower_idem]

/-- Splitting and run-counting agree, for any partially read word. -/
theorem splitAux_length (cs : List Char) :
    ∀ acc : List Char,
      (splitAux cs acc).length =
        (if acc.isEmpty then 0 else 1) + countRunsAux cs (!acc.isEmpty) := by
  induction cs with
  | nil =>
    intro acc
    cases acc <;> simp [splitAux, countRunsAux]
  | cons c cs ih =>
    intro acc
    by_cases hc : isSpace c
    · cases acc <;>
        simp [splitAux, countRunsAux, hc, ih, Nat.add_comm]
    · cases acc <;>
        simp [splitAux, countRunsAux, hc, ih, Nat.add_comm]

/-- C9: the analyzer's `word_count` equals the number of maximal runs of
non-whitespace characters (whitespace runs collapsed, leading and trailing
whitespace ignored); in particular the empty text and an all-whitespace
text have zero words and `a b  c` has three. -/
theorem word_count_counts_runs :
    (∀ t : List Char, (analyze_string t).word_count = countRuns t) ∧
    (analyze_string "".toList).word_count = 0 ∧
    (analyze_string "  ".toList).word_count = 0 ∧
    (analyze_string "a b  c".toList).word_count = 3 := by
  refine ⟨fun t => ?_, by decide, by decide, by decide⟩
  simp [analyze_string, pySplit, countRuns, splitAux_length t []]

/-- Membership in the deduplicated character sequence. -/
theorem mem_firstDedupAux (c : Char) :
    ∀ (t : List Char) (seen : List Char),
      c ∈ firstDedupAux seen t ↔ c ∈ t ∧ ¬ c ∈ seen := by
  intro t
  induction t with
  | nil => simp [firstDedupAux]
  | cons a cs ih =>
    intro seen
    by_cases ha : seen.contains a
    · rw [firstDedupAux, if_pos ha, ih]
      have ha2 : a ∈ seen := List.elem_iff.mp ha
      simp only [List.mem_cons]
      constructor
      · rintro ⟨hc, hs⟩
        exact ⟨Or.inr hc, hs⟩
      · rintro ⟨hc | hc, hs⟩
        · exact absurd (hc ▸ ha2) hs
        · exact ⟨hc, hs⟩
    · rw [firstDedupAux, if_neg ha, List.mem_cons, ih]
      have ha2 : ¬ a ∈ seen := fun hm => ha (List.elem_iff.mpr hm)
      simp only [List.mem_cons, not_or]
      constructor
      · rintro (rfl | ⟨hc, hca, hs⟩)
        · exact ⟨Or.inl rfl, ha2⟩
        · exact ⟨Or.inr hc, hs⟩
      · rintro ⟨rfl | hc, hs⟩
        · exact Or.inl rfl
        · by_cases hca : c = a
          · exact Or.inl hca
          · exact Or.inr ⟨hc, hca, hs⟩

/-- The deduplicated character sequence has no duplicates. -/
theorem nodup_firstDedupAux :
    ∀ (t : List Char) (seen : List Char), (firstDedupAux seen t).Nodup := by
  intro t
  induction t with
  | nil => intro seen; simp [firstDedupAux]
  | cons a cs ih =>
    intro seen
    by_cases ha : seen.contains a
    · rw [firstDedupAux, if_pos ha]
      exact ih seen
    · rw [firstDedupAux, if_neg ha]
      refine List.nodup_cons.mpr ⟨fun hmem => ?_, ih (a :: seen)⟩
      exact ((mem_firstDedupAux a cs (a :: seen)).mp hmem).2 (List.mem_cons_self a seen)

/-- Deduplication preserves the character set. -/
theorem toFinset_firstDedup (t : List Char) :
    (firstDedup t).toFinset = t.toFinset := by
  ext c
  simp [firstDedup, List.mem_toFinset, mem_firstDedupAux]

/-- C10: every record the analyzer produces is internally consistent — the
counts in the frequency map sum to the length, the number of keys equals
`unique_characters`, and each key occurs in the text with exactly its
stated count. -/
theorem analyzer_record_consistent (t : List Char) :
    ((analyze_string t).character_frequency_map.map fun p => p.2).sum =
      (analyze_string t).length ∧
    (analyze_string t).character_frequency_map.length =
      (analyze_string t).unique_characters ∧
    ∀ p ∈ (analyze_string t).character_frequency_map,
      p.1 ∈ t ∧ p.2 = t.count p.1 := by
  refine ⟨?_, ?_, ?_⟩
  · simp only [analyze_string, charFrequencyMap, List.map_map]
    rw [show ((fun p : Char × Nat => p.2) ∘ fun c => (c, t.count c)) =
      fun c => t.count c from rfl]
    rw [← List.sum_toFinset _ (show (firstDedup t).Nodup from nodup_firstDedupAux t [])]
    rw [toFinset_firstDedup t]
    exact List.sum_toFinset_count_eq_length t
  · simp only [analyze_string, charFrequencyMap, List.length_map]
    rw [← toFinset_firstDedup t,
      List.toFinset_card_of_nodup (show (firstDedup t).Nodup from nodup_firstDedupAux t [])]
  · intro p hp
    simp only [analyze_string, charFrequencyMap, List.mem_map] at hp
    obtain ⟨c, hc, rfl⟩ := hp
    exact ⟨((mem_firstDedupAux c t []).mp hc).1, rfl⟩

/-- The quote-and-capture matcher only returns lowercase alphanumerics. -/
theorem matchQuoteChar_lowerAlnum {r : List Char} {c : Char}
    (h : matchQuoteChar r = some c) : isLowerAlnum c = true := by
  rcases r with _ | ⟨c0, _ | ⟨d, rest⟩⟩ <;>
    simp only [matchQuoteChar] at h <;>
    first
      | (split_ifs at h <;> simp_all)
      | simp_all

/-- The `the letter` group matcher only returns lowercase alphanumerics. -/
theorem matchTheLetterTail_lowerAlnum {r : List Char} {c : Char}
    (h : matchTheLetterTail r = some c) : isLowerAlnum c = true := by
  unfold matchTheLetterTail at h
  dsimp only at h
  split_ifs at h
  exact matchQuoteChar_lowerAlnum h

/-- The contains-tail matcher only returns lowercase alphanumerics. -/
theorem matchContainTail_lowerAlnum {r : List Char} {c : Char}
    (h : matchContainTail r = some c) : isLowerAlnum c = true := by
  unfold matchContainTail at h
  dsimp only at h
  split_ifs at h
  rcases (Option.orElse_eq_some' _ _ _).mp h with h1 | ⟨-, h1⟩
  · exact matchTheLetterTail_lowerAlnum h1
  · exact matchQuoteChar_lowerAlnum h1

/-- The contains matcher only returns lowercase alphanumerics. -/
theorem matchContainsAt_lowerAlnum {t : List Char} {c : Char}
    (h : matchContainsAt t = some c) : isLowerAlnum c = true := by
  unfold matchContainsAt at h
  split_ifs at h
  rcases ht : t.drop 7 with _ | ⟨c0, rest⟩ <;> rw [ht] at h <;> dsimp only at h
  · exact absurd h (by simp)
  · split_ifs at h <;> exact matchContainTail_lowerAlnum h

/-- The contains search only returns lowercase alphanumerics. -/
theorem searchContains_lowerAlnum :
    ∀ {t : List Char} {c : Char},
      searchContains t = some c → isLowerAlnum c = true := by
  intro t
  induction t with
  | nil => intro c h; exact absurd h (by simp [searchContains])
  | cons a rest ih =>
    intro c h
    rw [searchContains] at h
    rcases (Option.orElse_eq_some' _ _ _).mp h with h1 | ⟨-, h1⟩
    · exact matchContainsAt_lowerAlnum h1
    · exact ih h1

/-- A key is present in the analyzer's frequency map iff the character
occurs in the text. -/
theorem hasKey_charFrequencyMap (t : List Char) (c : Char) :
    hasKey (charFrequencyMap t) c = true ↔ c ∈ t := by
  simp only [hasKey, charFrequencyMap, List.any_eq_true, List.mem_map,
    decide_eq_true_eq]
  constructor
  · rintro ⟨p, ⟨d, hd, rfl⟩, hp⟩
    dsimp at hp
    subst hp
    exact ((mem_firstDedupAux d t []).mp hd).1
  · intro hc
    exact ⟨(c, t.count c), ⟨c, (mem_firstDedupAux c t []).mpr ⟨hc, by simp⟩, rfl⟩, rfl⟩

/-- C7: any `contains_character` value produced by the interpreter is a
single lowercase letter or digit captured from the lower-cased sentence;
hence for a record whose text contains a letter only in uppercase form, the
evaluator's case-sensitive key test rejects the record on that letter, so no
natural-language query can select it this way. -/
theorem nl_contains_character_is_lowercase (query : List Char) (f : Filters)
    (c : Char) (h : parse_natural_language_query query = some f)
    (hc : f.contains_character = some c) :
    isLowerAlnum c = true ∧
    ∀ t : List Char, Char.toUpper c ∈ t → ¬ c ∈ t →
      hasKey (analyze_string t).character_frequency_map c = false := by
  obtain ⟨-, rfl⟩ := (parse_eq_some_iff query f).mp h
  rw [buildFilters_normal] at hc
  dsimp only at hc
  constructor
  · by_cases h8 : rule8Fires (normalizeQuery query)
    · rw [if_pos h8] at hc
      cases hc
      decide
    · rw [if_neg h8] at hc
      exact searchContains_lowerAlnum hc
  · intro t _ hnot
    have := hasKey_charFrequencyMap t c
    simp only [analyze_string]
    cases hk : hasKey (charFrequencyMap t) c
    · rfl
    · exact absurd ((hasKey_charFrequencyMap t c).mp hk) hnot

/-- C7 witness: `containing the letter z` captures `'z'`, and the record for
`Zoo` (which contains `z` only as uppercase `Z`) fails the key test. -/
theorem nl_contains_character_is_lowercase_witness :
    isLowerAlnum 'z' = true ∧
    hasKey (analyze_string "Zoo".toList).character_frequency_map 'z' = false := by
  have h := nl_contains_character_is_lowercase
    "containing the letter z".toList
    (buildFilters (normalizeQuery "containing the letter z".toList))
    'z' (by decide) (by decide)
  exact ⟨h.1, h.2 "Zoo".toList (by decide) (by decide)⟩

/-- C8 counterexample: for `strings shorter than 8` the interpreter yields
`max_length = 7`, yet the echoed `parsed_filters` record is identical to the
one echoed for an empty filter set — the response schema has no `max_length`
field, so the recognized bound is not represented in the report. -/
theorem nl_max_length_missing_from_report :
    parse_natural_language_query "strings shorter than 8".toList =
      some { max_length := some 7 } ∧
    nl_route_parsed "strings shorter than 8".toList =
      some (toNLFilterParsed Filters.empty) := by
  constructor
  · decide
  · decide

/-- C8 (amended): the natural-language route hands the full parsed filter
record — `max_length` included — to the evaluator, but the `parsed_filters`
record echoed to the caller ranges over only four fields and is unchanged
when `max_length` is dropped. -/
theorem nl_max_length_applied_but_not_reported (db : List AnalyzedString)
    (query : List Char) (f : Filters)
    (h : parse_natural_language_query query = some f) :
    nl_route_data db query = some (get_filtered_strings db f) ∧
    nl_route_parsed query = some (toNLFilterParsed f) ∧
    toNLFilterParsed f = toNLFilterParsed { f with max_length := none } := by
  refine ⟨?_, ?_, ?_⟩
  · unfold nl_route_data
    rw [h]
  · unfold nl_route_parsed
    rw [h]
    rfl
  · rfl

/-- C8 witness: the amended statement at `strings shorter than 8` over a
two-record collection (lengths 3 and 10; the evaluator keeps only the
first). -/
theorem nl_max_length_applied_but_not_reported_witness :
    nl_route_data
        [analyze_string "abc".toList, analyze_string "abcdefghij".toList]
        "strings shorter than 8".toList =
      some (get_filtered_strings
        [analyze_string "abc".toList, analyze_string "abcdefghij".toList]
        { max_length := some 7 }) ∧
    nl_route_parsed "strings shorter than 8".toList =
      some (toNLFilterParsed { max_length := some 7 }) ∧
    toNLFilterParsed { max_length := some 7 } =
      toNLFilterParsed
        { ({ max_length := some 7 } : Filters) with max_length := none } :=
  nl_max_length_applied_but_not_reported
    [analyze_string "abc".toList, analyze_string "abcdefghij".toList]
    "strings shorter than 8".toList { max_length := some 7 } (by decide)

end StringAnalyzer
